import Mathlib

/-!
Verification development for `scripts/compile.py`, a concurrent LaTeX build
orchestrator.  Python strings are modelled as Lean `String` (code-point lists);
`str.replace` / `str.strip` / `str.lower` / slicing are modelled by executable
functions over `List Char` below.  Subprocess invocation and file I/O are
modelled as oracles of type `Except String _` (an `Except.error` models a
raised Python exception, `Except.ok` a normal return).  The thread pools
(`ThreadPoolExecutor` + `as_completed`) are modelled by letting theorems
quantify over the arrival (completion) order of the per-task results.
-/

/-- Boolean prefix test on char lists (mirrors `List.isPrefixOf`). -/
def isPref : List Char → List Char → Bool
  | [], _ => true
  | _ :: _, [] => false
  | a :: as, b :: bs => a == b && isPref as bs

/-- Number of positions of `l` at which `pat` occurs (overlaps included). -/
def occCount (pat : List Char) : List Char → Nat
  | [] => 0
  | c :: cs => (if isPref pat (c :: cs) then 1 else 0) + occCount pat cs

/-- Fuelled scanner for Python `str.replace`: replaces the non-overlapping
occurrences of `pat` left to right.  `fuel` bounds the number of scanning
steps; `replaceAll` supplies `fuel = s.length`, which always suffices. -/
def replaceAllAux (pat repl : List Char) : Nat → List Char → List Char
  | _, [] => []
  | 0, l => l
  | fuel + 1, c :: cs =>
    if isPref pat (c :: cs) && !pat.isEmpty then
      repl ++ replaceAllAux pat repl fuel ((c :: cs).drop pat.length)
    else
      c :: replaceAllAux pat repl fuel cs

/-- Python `s.replace(pat, repl)` on char lists (for nonempty `pat`). -/
def replaceAll (pat repl s : List Char) : List Char :=
  replaceAllAux pat repl s.length s

/-- Python `s.replace(pat, repl)` on strings. -/
def pyReplace (s pat repl : String) : String :=
  ⟨replaceAll pat.data repl.data s.data⟩

/-- Strip leading and trailing whitespace from a char list. -/
def stripList (l : List Char) : List Char :=
  ((l.dropWhile Char.isWhitespace).reverse.dropWhile Char.isWhitespace).reverse

/-- Python `s.strip()` (restricted to ASCII whitespace). -/
def pyStrip (s : String) : String := ⟨stripList s.data⟩

/-- Python `s[:500]` (slicing by code points). -/
def pySlice500 (s : String) : String := ⟨s.data.take 500⟩

/-- Python `s.lower()` (ASCII case folding). -/
def pyLower (s : String) : String := ⟨s.data.map Char.toLower⟩

/-- Does `pat` occur anywhere in `s`? -/
def hasTok (pat s : String) : Bool := !(occCount pat.data s.data == 0)

/-- No proper nonempty suffix of `pat` is a prefix of `V`: a match of `pat`
cannot straddle a boundary into `V`. -/
def crossFree (pat V : List Char) : Bool :=
  (List.range pat.length).all (fun j => j == 0 || !(isPref (List.drop j pat) V))

/-- Concurrency planner, from `calculate_concurrency` in `scripts/compile.py`:
three tiers on the CPU count. -/
def calculate_concurrency (cpu_count : Nat) : Nat × Nat :=
  if cpu_count ≤ 4 then
    (max cpu_count 2, 2)
  else if cpu_count ≤ 8 then
    (cpu_count - 1, 2)
  else
    (cpu_count - 2, min 2 (cpu_count / 4))

/-- Modelled from the spec's three-tier table (§4.1), for comparison with
`calculate_concurrency`. -/
def specPlan (c : Nat) : Nat × Nat :=
  if c ≤ 4 then
    (max c 2, 2)
  else if c ≤ 8 then
    (c - 1, 2)
  else
    (c - 2, min 2 (c / 4))

/-- Pad-variant LaTeX template, the raw string `template_tex` embedded in
`compile_sub_pad` in `scripts/compile.py` (verbatim; braces written with
hexadecimal escapes). -/
def template_tex : String :=
  "\\documentclass[oneside]\x7bbook\x7d\n\n\\usepackage[fontset=ubuntu,heading=true,zihao=-4]\x7bctex\x7d\n\\usepackage[landscape,\n    width = 250mm,\n    height=178mm,\n    margin=1.8cm,      % 均匀边距\n    includefoot,\n    footskip=0.8cm,\n    headheight=15pt]\x7bgeometry\x7d\n\\usepackage[bookmarksnumbered]\x7bhyperref\x7d\n\\usepackage\x7bexam-zh-chinese-english\x7d\n\\usepackage\x7bexam-zh-font\x7d\n\\usepackage\x7bexam-zh-symbols\x7d\n\\usepackage\x7bexam-zh-question\x7d\n\\usepackage\x7bexam-zh-choices\x7d\n\\usepackage\x7bexam-zh-textfigure\x7d\n\\usepackage\x7bsetspace\x7d\n\\usepackage\x7bfancyhdr\x7d\n\\usepackage\x7bxparse\x7d\n\\usepackage\x7bpifont\x7d\n\\usepackage\x7bnccmath\x7d\n\\usepackage\x7btocloft\x7d\n\\usepackage\x7bmulticol\x7d\n\\usepackage\x7btitlesec\x7d\n\\UseTblrLibrary\x7bdiagbox\x7d\n\n\\setlength\x7b\\cftsecindent\x7d\x7b1.5em\x7d      % section缩进，默认2.2em\n\\setlength\x7b\\cftsubsecindent\x7d\x7b0em\x7d   % subsection缩进，默认4.4em\n\n\\addtocontents\x7btoc\x7d\x7b\\protect\\setstretch\x7b1.3\x7d\x7d \n\n\n\\hypersetup\x7b\n    hidelinks,\n\x7d\n\\ctexset\x7b\n    section = \x7b\n        name   = \x7b第,章\x7d,           % 中文：第1节\n        number =  \\chinese\x7bsection\x7d,  % 阿拉伯数字\n        aftername = \\quad,          % 名称和标题之间的间距\n        format = \\Large\\bfseries\\centering\n    \x7d,\n    subsection = \x7b\n        name   = \x7b\x7d,        % 去掉\"节\"字\n        number = \x7b\x7d,        % 去掉数字\n        aftername = \\ ,     % 无内容\n        format = \\large\\bfseries\\centering\\newpage\n    \x7d\n\x7d\n\n\\NewDocumentEnvironment\x7bmcol\x7d\x7b O\x7b0.45\\textwidth\x7d O\x7bt\x7d \x7d\x7b%\n    \\begin\x7bminipage\x7d[#2]\x7b#1\x7d%\n\x7d\x7b%\n    \\end\x7bminipage\x7d%\n    \\hfill%\n\x7d\n\n\\newcommand\x7b\\cone\x7d\x7b\\ding\x7b172\x7d\x7d\n\\newcommand\x7b\\ctwo\x7d\x7b\\ding\x7b173\x7d\x7d\n\\newcommand\x7b\\cthree\x7d\x7b\\ding\x7b174\x7d\x7d\n\\newcommand\x7b\\cfour\x7d\x7b\\ding\x7b175\x7d\x7d\n\n\\DeclareMathOperator\x7b\\Cov\x7d\x7bCov\x7d\n\\DeclareMathOperator\x7b\\grad\x7d\x7bgrad\x7d\n\\DeclareMathOperator\x7b\\rot\x7d\x7brot\x7d\n\\DeclareMathOperator\x7b\\divop\x7d\x7bdiv\x7d\n\n\\setstretch\x7b1.5\x7d\n\n\\everymath\x7b\\displaystyle\x7d\n\n\\pagestyle\x7bfancy\x7d\n\\fancyhf\x7b\x7d  % 清除所有页眉页脚\n\\renewcommand\x7b\\headrulewidth\x7d\x7b0pt\x7d  % 去掉页眉横线\n\\fancyfoot[C]\x7b\\thepage\x7d\n\n\\newcommand\x7b\\pp\x7d\x7b(\\quad)\x7d\n\\newcommand\x7b\\blankline\x7d\x7b\\rule[-1pt]\x7b1.5cm\x7d\x7b0.4pt\x7d\x7d\n\n\\let\\oldvfill\\vfill  % 保存原来的\\vfill命令\n\\renewcommand\x7b\\vfill\x7d\x7b\\newpage\x7d\n\n\\graphicspath\x7b\n  \x7b./\x7d        % 当前目录\n  \x7b../\x7d       % 上一层\n  \x7b../../\x7d    % 上两层\n  \x7b../../../\x7d % 上三层\n  \x7b../../../../\x7d % 上四层（通常足够）\n\x7d\n\n\\title\x7b\x7btitle\x7d\x7d\n\\author\x7bxiaochuan\x7d\n\\date\x7b\x7d\n\n\\renewcommand\x7b\\contentsname\x7d\x7b目录\x7d\n\n\\begin\x7bdocument\x7d\n\n\\frontmatter\n\\maketitle\n\n\\tableofcontents\n\n\n\\mainmatter\n\n\\input\x7bmain\x7d\n\n\\end\x7bdocument\x7d\n\n"

/-- Exam-variant LaTeX template, part before the hard page-break marker (the
raw string `template` embedded in `compile_sub_exam` in `scripts/compile.py`
is verbatim `tplHead ++ tplTail`; it is split at its single `\newpage`
occurrence so that theorems can reason about the marker without evaluating
the whole literal). -/
def tplHead : String :=
  "\\let\\stop\\empty\n\\documentclass\x7bexam-zh\x7d\n\n\\usepackage\x7bsetspace\x7d\n\n\\UseTblrLibrary\x7bdiagbox\x7d\n\n\\examsetup\x7b\n  page/size=a4paper,\n  paren/show-paren=true,\n  paren/show-answer=true,\n  fillin/type = line,\n  fillin/no-answer-type=none,\n  solution/show-solution=show-stay,\n  solution/label-indentation=false,\n\x7d\n\n\\newcommand\x7b\\pp\x7d\x7b(\\quad)\x7d\n\\newcommand\x7b\\blankline\x7d\x7b\\rule[-1pt]\x7b1.5cm\x7d\x7b0.4pt\x7d\x7d\n\n\\DeclareMathOperator\x7b\\Cov\x7d\x7bCov\x7d\n\\DeclareMathOperator\x7b\\grad\x7d\x7bgrad\x7d\n\\DeclareMathOperator\x7b\\rot\x7d\x7brot\x7d\n\\DeclareMathOperator\x7b\\divop\x7d\x7bdiv\x7d\n\n\n\\newcommand\x7b\\qrcode\x7d\x7b\n  \\begin\x7btikzpicture\x7d\n    \\node[rectangle,\n          draw=blue,            % 固定颜色\n          dashed,\n          line width=1pt,\n          rounded corners=5pt,\n          inner sep=10pt,\n          fill=blue!20,         % 固定背景色\n          minimum width=4cm,    % 固定宽度\n          minimum height=2cm]   % 固定高度\n    \x7b试卷条形码\x7d;           % 固定内容\n  \\end\x7btikzpicture\x7d\n\x7d\n\n\\graphicspath\x7b\n  \x7b./\x7d        % 当前目录\n  \x7b../\x7d       % 上一层\n  \x7b../../\x7d    % 上两层\n  \x7b../../../\x7d % 上三层\n  \x7b../../../../\x7d % 上四层（通常足够）\n\x7d\n\n\\everymath\x7b\\displaystyle\x7d\n\n\\title\x7b\x7btitle\x7d\x7d\n\n% \\secret\n\n\\subject\x7b数学(一)\x7d\n\n\\begin\x7bdocument\x7d\n\\secret\n\n\\maketitle\n\n\\vspace\x7b-10pt\x7d\n\\begin\x7bcenter\x7d\n\\Large (科目代码：301)\n\\end\x7bcenter\x7d\n\n\\begin\x7bnotice\x7d[label=\\makebox[\\textwidth][c]\x7b\\heiti\\textnormal\x7b考生注意事项\x7d\x7d,top-sep=20pt]\n  \\item 答题前，考生须在试题册指定位置上填写考生姓名和考生编号；在答题卡指定位置上填写报考单位、考生姓名和考生编号，并涂写考生编号信息点。\n  \\item 考生须把试题册上的“试卷条形码”粘贴条取下，粘贴在答题卡的“试卷条形码粘贴位置”框中。不按规定粘贴条形码而影响评卷结果的，责任由考生自负。\n  \\item 选择题的答案必须涂写在答题卡相应题号的选项上，非选择题的答案必须书写在答题卡指定位置的边框区域内。超出答题区域书写的答案无效；在草稿纸、试题册上答题无效。\n  \\item 填（书）写部分必须使用黑色字迹签字笔或者钢笔书写，字迹工整、笔记清楚；涂写部分必须使用2B铅笔填涂。\n  \\item 考试结束，将答题卡和试题册按规定交回。\n  \\item 本次考试时长为3小时。\n\\end\x7bnotice\x7d\n\n\\vspace\x7b50pt\x7d\n\n\\begin\x7bcenter\x7d\n\n\\qrcode\n\n\\vspace\x7b20pt\x7d\n\n（以下信息考生必须认真填写）\n\\vspace\x7b10pt\x7d\n\n\\begin\x7btblr\x7d\x7b\nwidth = 0.6\\textwidth,\nhlines,\nvlines,\ncolspec = \x7bQ[l, wd=1.6cm] *\x7b15\x7d\x7bX[c]\x7d\x7d,\ncell\x7b2\x7d\x7b2\x7d = \x7br=1,c=15\x7d\x7bc\x7d\n\x7d\n考生编号 & & & & & & & & & & & & & & & \\\\\n考生姓名 & & & & & & & & & & & & & & & \\\\\n\\end\x7btblr\x7d\n\\end\x7bcenter\x7d\n\n"

/-- Exam-variant LaTeX template, from the hard page-break marker to the end
(contains the `content` anchor). -/
def tplTail : String :=
  "\\newpage\n\x7bcontent\x7d\n\n\\end\x7bdocument\x7d"

/-- Exam-variant LaTeX template, the raw string `template` embedded in
`compile_sub_exam` in `scripts/compile.py` (verbatim). -/
def examTemplate : String := tplHead ++ tplTail

/-- Placeholder token `{title}` used by both templates. -/
def titleTok : String := "\x7btitle\x7d"

/-- Content anchor `{content}` of the exam template. -/
def contentTok : String := "\x7bcontent\x7d"

/-- Hard page-break marker stripped from the exam body. -/
def npMarker : String := "\\newpage"

/-- Fill/stretch marker stripped from the exam body. -/
def vfMarker : String := "\\vfill"

/-- Observable outcome of one variant-compile task: the returned success flag
and job tag (the Python functions return `(bool, f"pad_{task_id}")`), plus the
diagnostic text the task prints (the exception text, or `stderr[:500]`). -/
structure CompileResult where
  succeeded : Bool
  jobId : String
  printedDiag : Option String
deriving DecidableEq

/-- Rendered pad document: `template_tex.replace("{title}", name)`. -/
def renderPadText (name : String) : String :=
  pyReplace template_tex titleTok name

/-- Rendered exam document, from `compile_sub_exam`: the source body with
`\newpage` then `\vfill` removed, substituted into the exam template after the
title: `template.replace('{title}', name).replace('{content}', input_tex)`. -/
def renderExamText (name body : String) : String :=
  pyReplace (pyReplace examTemplate titleTok name) contentTok
    (pyReplace (pyReplace body npMarker "") vfMarker "")

/-- Model of `compile_sub_pad entry name task_id`.  `fsWrite path text` is the
file-system oracle for the `open(...).write` call (NOT inside any
`try/except` in the source, so its exception propagates out of the task);
`proc` is the oracle for `subprocess.Popen` + `communicate`, giving either a
spawn exception or `(returncode, stderr)`. -/
def compile_sub_pad (entry name task_id : String)
    (fsWrite : String → String → Except String Unit)
    (proc : Except String (Int × String)) : Except String CompileResult :=
  let out_tex := renderPadText name
  let filepath := entry ++ "/pad.tex"
  match fsWrite filepath out_tex with
  | Except.error e => Except.error e
  | Except.ok _ =>
    match proc with
    | Except.error e => Except.ok ⟨false, "pad_" ++ task_id, some e⟩
    | Except.ok (returncode, stderr) =>
      if returncode = 0 then
        Except.ok ⟨true, "pad_" ++ task_id, none⟩
      else
        Except.ok ⟨false, "pad_" ++ task_id,
          if stderr = "" then none else some (pySlice500 stderr)⟩

/-- Model of `compile_sub_exam entry name task_id`.  The read of `main.tex`
and the write of `exam.tex` sit inside a `try/except` that returns
`(False, f"exam_{task_id}")`, so an I/O failure yields a failed result rather
than an exception. -/
def compile_sub_exam (entry name task_id : String)
    (fsRead : String → Except String String)
    (fsWrite : String → String → Except String Unit)
    (proc : Except String (Int × String)) : Except String CompileResult :=
  let input_path := entry ++ "/main.tex"
  let output_path := entry ++ "/exam.tex"
  let rendered : Except String Unit := do
    let raw ← fsRead input_path
    fsWrite output_path (renderExamText name raw)
  match rendered with
  | Except.error e => Except.ok ⟨false, "exam_" ++ task_id, some e⟩
  | Except.ok _ =>
    match proc with
    | Except.error e => Except.ok ⟨false, "exam_" ++ task_id, some e⟩
    | Except.ok (returncode, stderr) =>
      if returncode = 0 then
        Except.ok ⟨true, "exam_" ++ task_id, none⟩
      else
        Except.ok ⟨false, "exam_" ++ task_id,
          if stderr = "" then none else some (pySlice500 stderr)⟩

/-- Model of `compile_sub_project item task_id max_tasks`: submits the pad and
exam tasks to the per-project pool, collects both via `as_completed`, and
reduces with `all(...)`.  A raised exception from either future propagates out
of `compile_sub_project` (only the pad task can raise; the exam task's model
never returns `Except.error`). -/
def compile_sub_project (entry name : String) (task_id : Nat)
    (padWrite : String → String → Except String Unit)
    (padProc : Except String (Int × String))
    (examRead : String → Except String String)
    (examWrite : String → String → Except String Unit)
    (examProc : Except String (Int × String)) :
    Except String (Bool × Nat × String) :=
  match compile_sub_pad entry name (toString task_id ++ "_pad") padWrite padProc,
        compile_sub_exam entry name (toString task_id ++ "_exam") examRead examWrite examProc with
  | Except.error e, _ => Except.error e
  | Except.ok _, Except.error e => Except.error e
  | Except.ok r1, Except.ok r2 => Except.ok (r1.succeeded && r2.succeeded, task_id, name)

/-- Did the task raise past the per-task boundary (its future re-raises in
`future.result()`)? -/
def raised (r : Except String CompileResult) : Bool :=
  match r with
  | Except.error _ => true
  | Except.ok _ => false

/-- Success flag of a returned CompileResult (`false` if the task raised). -/
def okSucc (r : Except String CompileResult) : Bool :=
  match r with
  | Except.ok c => c.succeeded
  | Except.error _ => false

/-- Success flag of a task outcome, when one was returned. -/
def succOf (r : Except String CompileResult) : Option Bool :=
  match r with
  | Except.ok c => some c.succeeded
  | Except.error _ => none

/-- Length of the diagnostic a task printed (0 when none). -/
def diagLen (r : Except String CompileResult) : Nat :=
  match r with
  | Except.ok c => (c.printedDiag.getD "").length
  | Except.error _ => 0

/-- Resolution of the concurrency knobs in `main`: `cpu_count` is the
auto-detected count (`get_cpu_count()`), `forceCpu` the `--force-cpu` flag
(0 = auto), `userMp`/`userTp` the explicitly passed `--max-projects` /
`--max-tasks-per-project` flags (`none` = flag absent, so `argparse` fills in
the auto-computed default).  The final `if args.x != x` comparisons are the
source's override detection. -/
def resolveWidths (cpu_count forceCpu : Nat) (userMp userTp : Option Nat) :
    Nat × Nat :=
  let auto := calculate_concurrency cpu_count
  let argsMp := userMp.getD auto.1
  let argsTp := userTp.getD auto.2
  let forced := if forceCpu > 0 then calculate_concurrency forceCpu else auto
  let mp := if argsMp ≠ forced.1 then argsMp else forced.1
  let tp := if argsTp ≠ forced.2 then argsTp else forced.2
  (mp, tp)

/-- One candidate project unit found by the `contents` tree walk: the first
line of its `main.tex` plus its directory (relative path). -/
structure SrcUnit where
  firstLine : String
  entry : String
deriving DecidableEq

/-- Project descriptor as built by `get_list`. -/
structure Desc where
  name : String
  entry : String
deriving DecidableEq

/-- Title extraction from `get_list`:
`title = first_line.replace('%', '').strip()`; empty titles are skipped. -/
def extractTitle (first_line : String) : Option String :=
  let title := pyStrip (pyReplace first_line "%" "")
  if title = "" then none else some title

/-- Modelled from the claim's words for comparison: the first line with only
a LEADING comment marker and surrounding whitespace stripped. -/
def specExtractTitle (first_line : String) : Option String :=
  let t0 := pyStrip first_line
  let t1 :=
    match t0.data with
    | '%' :: rest => pyStrip ⟨rest⟩
    | _ => t0
  if t1 = "" then none else some t1

/-- Amended title extraction: EVERY occurrence of the comment-marker
character removed, then surrounding whitespace stripped. -/
def amendedTitle (first_line : String) : Option String :=
  let t := pyStrip ⟨first_line.data.filter (fun c => !(c == '%'))⟩
  if t = "" then none else some t

/-- Model of `get_list`: walks the candidate units in traversal order and
keeps those with a nonempty extracted title. -/
def getList : List SrcUnit → List Desc
  | [] => []
  | u :: rest =>
    match extractTitle u.firstLine with
    | some t => ⟨t, u.entry⟩ :: getList rest
    | none => getList rest

/-- One per-project arrival at the scheduler boundary: either the value of
`compile_sub_project` — `(all_success, task_id, project_name)` — or the
exception its future re-raises. -/
abbrev ProjectArrival := Except String (Bool × Nat × String)

/-- The `for i, future in enumerate(as_completed(futures))` loop of `main`,
over the arrivals in completion order: a normal result appends the project
name to the successful or failed list; an exception is caught and appends the
synthesized identifier `f"项目{i}"` to the failed list. -/
def aggregateAux : Nat → List ProjectArrival → List String × List String
  | _, [] => ([], [])
  | i, r :: rest =>
    let p := aggregateAux (i + 1) rest
    match r with
    | Except.ok (true, _, nm) => (nm :: p.1, p.2)
    | Except.ok (false, _, nm) => (p.1, nm :: p.2)
    | Except.error _ => (p.1, ("项目" ++ toString i) :: p.2)

/-- Successful and failed project-name lists accumulated by `main`. -/
def aggregate (arrivals : List ProjectArrival) : List String × List String :=
  aggregateAux 0 arrivals

/-- Projection used for order-independence: the name of a succeeded project. -/
def succName (r : ProjectArrival) : Option String :=
  match r with
  | Except.ok (true, _, nm) => some nm
  | _ => none

/-- Projection used for order-independence: the name of a failed project. -/
def failName (r : ProjectArrival) : Option String :=
  match r with
  | Except.ok (false, _, nm) => some nm
  | _ => none

/-- Did this arrival carry a returned outcome (no uncaught fault)? -/
def resOk (r : ProjectArrival) : Bool :=
  match r with
  | Except.ok _ => true
  | Except.error _ => false

/-- Result of one run of `main`, as far as the claims observe it: whether the
project discovery ran, the two name lists, and the process exit status. -/
structure MainResult where
  ranDiscovery : Bool
  successful : List String
  failed : List String
  exitCode : Nat
deriving DecidableEq

/-- Control-flow model of `main`: the `--sub` gate (`args.sub.lower() ==
'true'`), the empty-project early exit, then the scheduler run (`arrivals` is
the completion-ordered list of per-project results) and the final
`sys.exit(1)` iff any project failed. -/
def mainModel (subFlag : String) (units : List SrcUnit)
    (arrivals : List ProjectArrival) : MainResult :=
  if pyLower subFlag = "true" then
    let projects := getList units
    if projects.isEmpty then
      ⟨true, [], [], 0⟩
    else
      let r := aggregate arrivals
      ⟨true, r.1, r.2, if r.2.length = 0 then 0 else 1⟩
  else
    ⟨false, [], [], 0⟩

/-- C4: for every CPU count `c` the concurrency plan has `projectWidth ≥ 2`
and `taskWidth ∈ {1, 2}`, matches the spec's three-tier table exactly, and
takes the tabulated values at `c = 4, 6, 9, 16`. -/
theorem calculate_concurrency_matches_spec (c : Nat) :
    calculate_concurrency c = specPlan c
    ∧ 2 ≤ (calculate_concurrency c).1
    ∧ ((calculate_concurrency c).2 = 1 ∨ (calculate_concurrency c).2 = 2)
    ∧ calculate_concurrency 4 = (4, 2)
    ∧ calculate_concurrency 6 = (5, 2)
    ∧ calculate_concurrency 9 = (7, 2)
    ∧ calculate_concurrency 16 = (14, 2) := by
  refine ⟨rfl, ?_, ?_, by decide, by decide, by decide, by decide⟩
  · unfold calculate_concurrency
    split_ifs <;> dsimp only
    · simp only [Nat.max_def]
      split_ifs <;> omega
    · omega
    · omega
  · unfold calculate_concurrency
    split_ifs <;> dsimp only
    · right; rfl
    · right; rfl
    · simp only [Nat.min_def]
      split_ifs <;> first | (right; rfl) | (exfalso; omega)

/-! Basic facts about the scanner primitives. -/

theorem occCount_cons (pat : List Char) (c : Char) (cs : List Char) :
    occCount pat (c :: cs) = (if isPref pat (c :: cs) then 1 else 0) + occCount pat cs := rfl

theorem occCount_le_append (pat a l : List Char) :
    occCount pat l ≤ occCount pat (a ++ l) := by
  induction a with
  | nil => exact Nat.le_refl _
  | cons c a ih =>
    refine Nat.le_trans ih ?_
    show occCount pat (a ++ l) ≤ occCount pat (c :: (a ++ l))
    rw [occCount_cons]
    exact Nat.le_add_left _ _

theorem replaceAllAux_nil (pat repl : List Char) (fuel : Nat) :
    replaceAllAux pat repl fuel [] = [] := by
  cases fuel <;> rfl

theorem replaceAllAux_zero (pat repl l : List Char) :
    replaceAllAux pat repl 0 l = l := by
  cases l <;> rfl

theorem replaceAllAux_succ_cons (pat repl : List Char) (fuel : Nat) (c : Char) (cs : List Char) :
    replaceAllAux pat repl (fuel + 1) (c :: cs) =
      if isPref pat (c :: cs) && !pat.isEmpty then
        repl ++ replaceAllAux pat repl fuel ((c :: cs).drop pat.length)
      else
        c :: replaceAllAux pat repl fuel cs := rfl

theorem length_pos_of_not_isEmpty (pat : List Char) (h : (!pat.isEmpty) = true) :
    0 < pat.length := by
  cases pat with
  | nil => simp [List.isEmpty] at h
  | cons a as => exact Nat.succ_pos _

theorem isPref_append_self (l t : List Char) : isPref l (l ++ t) = true := by
  induction l with
  | nil => rfl
  | cons a as ih => simp [isPref, ih]

theorem drop_append_of_le {α : Type} :
    ∀ (n : Nat) (l₁ l₂ : List α), n ≤ l₁.length →
      (l₁ ++ l₂).drop n = l₁.drop n ++ l₂ := by
  intro n
  induction n with
  | zero => intro l₁ l₂ _; rfl
  | succ n ih =>
    intro l₁ l₂ h
    cases l₁ with
    | nil => simp at h
    | cons c cs => exact ih cs l₂ (Nat.le_of_succ_le_succ h)

theorem drop_self_length {α : Type} : ∀ (l : List α), l.drop l.length = [] := by
  intro l
  induction l with
  | nil => rfl
  | cons c cs ih => exact ih

/-- Fuel insensitivity: any fuel at least the input length gives the same
scan result. -/
theorem replaceAllAux_fuel (pat repl : List Char) :
    ∀ (f₁ : Nat), ∀ (f₂ : Nat) (l : List Char), l.length ≤ f₁ → l.length ≤ f₂ →
      replaceAllAux pat repl f₁ l = replaceAllAux pat repl f₂ l := by
  intro f₁
  induction f₁ with
  | zero =>
    intro f₂ l h1 _
    cases l with
    | nil => rw [replaceAllAux_nil, replaceAllAux_nil]
    | cons c cs => simp at h1
  | succ f₁ ih =>
    intro f₂ l h1 h2
    cases l with
    | nil => rw [replaceAllAux_nil, replaceAllAux_nil]
    | cons c cs =>
      cases f₂ with
      | zero => simp at h2
      | succ f₂ =>
        rw [replaceAllAux_succ_cons, replaceAllAux_succ_cons]
        by_cases hg : (isPref pat (c :: cs) && !pat.isEmpty) = true
        · rw [if_pos hg, if_pos hg]
          have hp : 0 < pat.length :=
            length_pos_of_not_isEmpty pat (Bool.and_elim_right hg)
          have hd : ((c :: cs).drop pat.length).length ≤ f₁ := by
            simp only [List.length_drop, List.length_cons]
            simp only [List.length_cons] at h1
            omega
          have hd2 : ((c :: cs).drop pat.length).length ≤ f₂ := by
            simp only [List.length_drop, List.length_cons]
            simp only [List.length_cons] at h2
            omega
          rw [ih f₂ _ hd hd2]
        · rw [if_neg hg, if_neg hg]
          have hc : cs.length ≤ f₁ := by
            simp only [List.length_cons] at h1; omega
          have hc2 : cs.length ≤ f₂ := by
            simp only [List.length_cons] at h2; omega
          rw [ih f₂ cs hc hc2]

/-- A pattern with no occurrence is never replaced. -/
theorem replaceAllAux_of_occCount_zero (pat repl : List Char) :
    ∀ (fuel : Nat) (l : List Char), occCount pat l = 0 →
      replaceAllAux pat repl fuel l = l := by
  intro fuel
  induction fuel with
  | zero => intro l _; exact replaceAllAux_zero pat repl l
  | succ fuel ih =>
    intro l h
    cases l with
    | nil => exact replaceAllAux_nil pat repl _
    | cons c cs =>
      rw [occCount_cons] at h
      have hpf : isPref pat (c :: cs) = false := by
        by_cases hp : isPref pat (c :: cs) = true
        · rw [if_pos hp] at h; omega
        · exact Bool.eq_false_iff.mpr hp
      have hocc : occCount pat cs = 0 := by
        rw [hpf] at h; simpa using h
      rw [replaceAllAux_succ_cons, hpf]
      simp only [Bool.false_and, if_neg Bool.false_ne_true]
      rw [ih cs hocc]

theorem replaceAll_of_occCount_zero (pat repl l : List Char) (h : occCount pat l = 0) :
    replaceAll pat repl l = l :=
  replaceAllAux_of_occCount_zero pat repl l.length l h

/-- A match that starts at the head but is longer than `U` forces a proper
suffix of `pat` to be a prefix of `V`. -/
theorem isPref_append_extend :
    ∀ (U pat V : List Char), isPref pat (U ++ V) = true → U.length < pat.length →
      isPref (pat.drop U.length) V = true := by
  intro U
  induction U with
  | nil => intro pat V h _; exact h
  | cons c U ih =>
    intro pat V h hlt
    cases pat with
    | nil => simp at hlt
    | cons p ps =>
      have h' : isPref ps (U ++ V) = true := by
        simp only [List.cons_append, isPref, Bool.and_eq_true] at h
        exact h.2
      have hlt' : U.length < ps.length := by
        simp only [List.length_cons] at hlt; omega
      exact ih ps V h' hlt'

theorem crossFree_spec (pat V : List Char) (h : crossFree pat V = true) :
    ∀ j, 0 < j → j < pat.length → isPref (List.drop j pat) V = false := by
  intro j hj hjlt
  unfold crossFree at h
  rw [List.all_eq_true] at h
  have hm := h j (List.mem_range.mpr hjlt)
  simp only [Bool.or_eq_true, beq_iff_eq, Bool.not_eq_eq_eq_not, Bool.not_true] at hm
  cases hm with
  | inl h0 => omega
  | inr hb => exact hb

/-- Scanning `U ++ V` when no match of `pat` can straddle into `V`: the scan
transforms `U` into some `Z` and then scans `V` on its own. -/
theorem replaceAllAux_append_preserve (pat repl V : List Char)
    (hcross : crossFree pat V = true) :
    ∀ (fuel : Nat), ∀ (U : List Char), (U ++ V).length ≤ fuel →
      ∃ Z, replaceAllAux pat repl fuel (U ++ V) = Z ++ replaceAll pat repl V := by
  intro fuel
  induction fuel with
  | zero =>
    intro U h
    have hu : U = [] ∧ V = [] := by
      rw [List.length_append] at h
      constructor
      · exact List.length_eq_zero.mp (by omega)
      · exact List.length_eq_zero.mp (by omega)
    refine ⟨[], ?_⟩
    rw [hu.1, hu.2]
    rfl
  | succ fuel ih =>
    intro U h
    cases U with
    | nil =>
      refine ⟨[], ?_⟩
      rw [List.nil_append, List.nil_append]
      exact replaceAllAux_fuel pat repl (fuel + 1) V.length V
        (by simpa using h) (Nat.le_refl _)
    | cons c U' =>
      rw [List.cons_append, replaceAllAux_succ_cons]
      by_cases hg : (isPref pat (c :: (U' ++ V)) && !pat.isEmpty) = true
      · rw [if_pos hg]
        have hp : 0 < pat.length :=
          length_pos_of_not_isEmpty pat (Bool.and_elim_right hg)
        have hpref : isPref pat ((c :: U') ++ V) = true := by
          rw [List.cons_append]; exact Bool.and_elim_left hg
        rcases Nat.lt_or_ge (c :: U').length pat.length with hlt | hge
        · -- the match would straddle into V: impossible by crossing freedom
          have hcontra := isPref_append_extend (c :: U') pat V hpref hlt
          have hfalse := crossFree_spec pat V hcross (c :: U').length
            (by simp) hlt
          rw [hcontra] at hfalse
          exact absurd hfalse (by simp)
        · -- the match stays inside `c :: U'`
          have hdrop : (c :: (U' ++ V)).drop pat.length
              = (c :: U').drop pat.length ++ V := by
            rw [show c :: (U' ++ V) = (c :: U') ++ V from rfl]
            exact drop_append_of_le pat.length (c :: U') V hge
          rw [hdrop]
          have hlen : ((c :: U').drop pat.length ++ V).length ≤ fuel := by
            simp only [List.length_append, List.length_drop, List.length_cons]
            simp only [List.cons_append, List.length_cons, List.length_append] at h
            omega
          obtain ⟨Z, hZ⟩ := ih ((c :: U').drop pat.length) hlen
          exact ⟨repl ++ Z, by rw [hZ, List.append_assoc]⟩
      · rw [if_neg hg]
        have hlen : (U' ++ V).length ≤ fuel := by
          simp only [List.cons_append, List.length_cons] at h
          omega
        obtain ⟨Z, hZ⟩ := ih U' hlen
        exact ⟨c :: Z, by rw [hZ]; rfl⟩

/-- String-level corollary of the preservation lemma. -/
theorem pyReplace_append_preserve (s pat repl : String) (U V : List Char)
    (hcross : crossFree pat.data V = true) (hs : s.data = U ++ V) :
    ∃ Z, (pyReplace s pat repl).data = Z ++ replaceAll pat.data repl.data V := by
  have h0 : (pyReplace s pat repl).data
      = replaceAllAux pat.data repl.data s.data.length s.data := rfl
  rw [h0, hs]
  exact replaceAllAux_append_preserve pat.data repl.data V hcross
    (U ++ V).length U (Nat.le_refl _)

theorem string_data_append (a b : String) : (a ++ b).data = a.data ++ b.data := by
  cases a
  cases b
  rfl

/-- Scanning a list with exactly one occurrence of `pat` removes it and
concatenates the surrounding text. -/
theorem replaceAll_unique_occurrence (pat : List Char) (hpat : (!pat.isEmpty) = true) :
    ∀ (fuel : Nat), ∀ (pre post : List Char),
      (pre ++ (pat ++ post)).length ≤ fuel →
      occCount pat (pre ++ (pat ++ post)) = 1 →
      replaceAllAux pat [] fuel (pre ++ (pat ++ post)) = pre ++ post := by
  intro fuel
  induction fuel with
  | zero =>
    intro pre post h _
    have hp : 0 < pat.length := length_pos_of_not_isEmpty pat hpat
    simp only [List.length_append] at h
    omega
  | succ fuel ih =>
    intro pre post h hocc
    cases pre with
    | nil =>
      cases pat with
      | nil => simp [List.isEmpty] at hpat
      | cons p ps =>
        rw [List.nil_append] at hocc ⊢
        rw [List.cons_append, replaceAllAux_succ_cons]
        have hpref : isPref (p :: ps) (p :: (ps ++ post)) = true := by
          rw [show p :: (ps ++ post) = (p :: ps) ++ post from rfl]
          exact isPref_append_self (p :: ps) post
        rw [hpref]
        simp only [Bool.true_and, hpat, if_pos]
        have hdrop : (p :: (ps ++ post)).drop (p :: ps).length = post := by
          rw [show p :: (ps ++ post) = (p :: ps) ++ post from rfl,
            drop_append_of_le (p :: ps).length (p :: ps) post (Nat.le_refl _),
            drop_self_length, List.nil_append]
        rw [hdrop]
        have hzero : occCount (p :: ps) post = 0 := by
          rw [show (p :: ps) ++ post = p :: (ps ++ post) from rfl, occCount_cons,
            hpref, if_pos rfl] at hocc
          have h0 : occCount (p :: ps) (ps ++ post) = 0 := by omega
          have := occCount_le_append (p :: ps) ps post
          omega
        rw [replaceAllAux_of_occCount_zero (p :: ps) [] fuel post hzero,
          List.nil_append]
    | cons c pre' =>
      rw [List.cons_append, replaceAllAux_succ_cons]
      have hp : 0 < pat.length := length_pos_of_not_isEmpty pat hpat
      have hseam : 0 < occCount pat (pre' ++ (pat ++ post)) := by
        have hbase : 0 < occCount pat (pat ++ post) := by
          cases pat with
          | nil => simp at hp
          | cons p ps =>
            rw [show (p :: ps) ++ post = p :: (ps ++ post) from rfl, occCount_cons]
            rw [show isPref (p :: ps) (p :: (ps ++ post))
                = isPref (p :: ps) ((p :: ps) ++ post) from rfl,
              isPref_append_self, if_pos rfl]
            omega
        exact Nat.lt_of_lt_of_le hbase (occCount_le_append pat pre' (pat ++ post))
      have hpf : isPref pat (c :: (pre' ++ (pat ++ post))) = false := by
        by_cases hx : isPref pat (c :: (pre' ++ (pat ++ post))) = true
        · rw [show (c :: pre') ++ (pat ++ post) = c :: (pre' ++ (pat ++ post)) from rfl,
            occCount_cons, hx, if_pos rfl] at hocc
          omega
        · exact Bool.eq_false_iff.mpr hx
      rw [hpf]
      simp only [Bool.false_and, if_neg Bool.false_ne_true]
      have hlen : (pre' ++ (pat ++ post)).length ≤ fuel := by
        simp only [List.cons_append, List.length_cons] at h
        omega
      have hocc' : occCount pat (pre' ++ (pat ++ post)) = 1 := by
        rw [show (c :: pre') ++ (pat ++ post) = c :: (pre' ++ (pat ++ post)) from rfl,
          occCount_cons, hpf] at hocc
        simpa using hocc
      rw [ih pre' post hlen hocc']
      rfl

/-- Removing every `%` with the scanner is filtering out the `%` characters. -/
theorem replaceAllAux_percent :
    ∀ (fuel : Nat), ∀ (l : List Char), l.length ≤ fuel →
      replaceAllAux ['%'] [] fuel l = l.filter (fun c => !(c == '%')) := by
  intro fuel
  induction fuel with
  | zero =>
    intro l h
    have : l = [] := List.length_eq_zero.mp (by omega)
    rw [this]
    rfl
  | succ fuel ih =>
    intro l h
    cases l with
    | nil => rfl
    | cons c cs =>
      rw [replaceAllAux_succ_cons]
      have hlen : cs.length ≤ fuel := by
        simp only [List.length_cons] at h; omega
      by_cases hc : c = '%'
      · have hg : (isPref ['%'] (c :: cs) && !List.isEmpty ['%']) = true := by
          simp [isPref, hc]
        rw [if_pos hg]
        have : (c :: cs).drop (['%'] : List Char).length = cs := rfl
        rw [this, List.nil_append, ih cs hlen]
        simp [List.filter_cons, hc]
      · have hg : (isPref ['%'] (c :: cs) && !List.isEmpty ['%']) = false := by
          simp [isPref]
          exact fun hcc => absurd hcc.symm hc
        rw [if_neg (by rw [hg]; exact Bool.false_ne_true)]
        rw [ih cs hlen]
        simp [List.filter_cons, hc]

theorem pyReplace_percent (s : String) :
    pyReplace s "%" "" = ⟨s.data.filter (fun c => !(c == '%'))⟩ := by
  unfold pyReplace replaceAll
  exact congrArg String.mk (replaceAllAux_percent s.data.length s.data (Nat.le_refl _))

set_option maxRecDepth 2000 in
/-- C6 counterexample: rendering the exam variant of the concrete source body
`A\newpageB` produces output in which the literal token `\newpage` DOES
appear (the exam template itself contains one occurrence, just before the
content anchor), refuting the claim that the marker's literal token does not
appear in the output. -/
theorem c6_counterexample :
    hasTok npMarker (renderExamText "T" "A\\newpageB") = true := by
  have hbody : pyReplace (pyReplace "A\\newpageB" npMarker "") vfMarker "" = "AB" := by
    decide
  have hrender : renderExamText "T" "A\\newpageB"
      = pyReplace (pyReplace examTemplate titleTok "T") contentTok "AB" := by
    unfold renderExamText
    rw [hbody]
  rw [hrender]
  obtain ⟨Z₁, hZ₁⟩ := pyReplace_append_preserve examTemplate titleTok "T"
    tplHead.data tplTail.data (by decide) (string_data_append tplHead tplTail)
  have htail1 : replaceAll titleTok.data "T".data tplTail.data = tplTail.data :=
    replaceAll_of_occCount_zero _ _ _ (by decide)
  rw [htail1] at hZ₁
  obtain ⟨Z₂, hZ₂⟩ := pyReplace_append_preserve (pyReplace examTemplate titleTok "T")
    contentTok "AB" Z₁ tplTail.data (by decide) hZ₁
  have htail2 : replaceAll contentTok.data "AB".data tplTail.data
      = ("\\newpage\nAB\n\n\\end\x7bdocument\x7d" : String).data := by decide
  rw [htail2] at hZ₂
  have hocc : 0 < occCount npMarker.data
      (pyReplace (pyReplace examTemplate titleTok "T") contentTok "AB").data := by
    rw [hZ₂]
    exact Nat.lt_of_lt_of_le (by decide) (occCount_le_append _ _ _)
  have hne : occCount npMarker.data
      (pyReplace (pyReplace examTemplate titleTok "T") contentTok "AB").data ≠ 0 := by
    omega
  unfold hasTok
  simp [hne]

/-- C6 (amended): for a source body in which the hard page-break marker
occurs exactly once (and the fill marker does not occur in the rest),
rendering the exam variant substitutes the body with the marker removed and
the surrounding text concatenated into the template's content anchor.  (The
marker's literal token can nevertheless appear in the full output, because
the exam template itself contains one occurrence — see the counterexample.) -/
theorem c6_amended (name pre post : String)
    (h1 : occCount npMarker.data (pre.data ++ (npMarker.data ++ post.data)) = 1)
    (h2 : occCount vfMarker.data (pre.data ++ post.data) = 0) :
    renderExamText name ⟨pre.data ++ (npMarker.data ++ post.data)⟩
      = pyReplace (pyReplace examTemplate titleTok name) contentTok
          ⟨pre.data ++ post.data⟩ := by
  unfold renderExamText
  have e1 : pyReplace ⟨pre.data ++ (npMarker.data ++ post.data)⟩ npMarker ""
      = ⟨pre.data ++ post.data⟩ := by
    unfold pyReplace replaceAll
    exact congrArg String.mk
      (replaceAll_unique_occurrence npMarker.data (by decide)
        (pre.data ++ (npMarker.data ++ post.data)).length pre.data post.data
        (Nat.le_refl _) h1)
  have e2 : pyReplace ⟨pre.data ++ post.data⟩ vfMarker ""
      = ⟨pre.data ++ post.data⟩ := by
    unfold pyReplace replaceAll
    exact congrArg String.mk
      (replaceAllAux_of_occCount_zero vfMarker.data [] _ _ h2)
  rw [e1, e2]

set_option maxRecDepth 2000 in
/-- Witness for the amended C6 at a concrete input. -/
theorem c6_amended_witness :
    renderExamText "T" ⟨"A".data ++ (npMarker.data ++ "B".data)⟩
      = pyReplace (pyReplace examTemplate titleTok "T") contentTok
          ⟨"A".data ++ "B".data⟩ :=
  c6_amended "T" "A" "B" (by decide) (by decide)

/-- C7 counterexample: for the first line `a%b`, `get_list` produces the name
`ab` (it removes EVERY `%` character), while stripping only a leading comment
marker would give `a%b`; the claimed name extraction is refuted. -/
theorem c7_counterexample :
    getList [⟨"a%b", "contents/u"⟩] = [⟨"ab", "contents/u"⟩]
    ∧ specExtractTitle "a%b" = some "a%b"
    ∧ ("ab" : String) ≠ "a%b" := by decide

/-- C7 (amended): every discovered descriptor's name is the source document's
first line with EVERY occurrence of the comment-marker character removed and
surrounding whitespace stripped; a unit whose first line is empty after this
stripping is excluded from the discovered list (skipped, not an error). -/
theorem c7_amended (units : List SrcUnit) :
    getList units = units.filterMap
      (fun u => (amendedTitle u.firstLine).map (fun t => (⟨t, u.entry⟩ : Desc))) := by
  induction units with
  | nil => rfl
  | cons u rest ih =>
    have heq : extractTitle u.firstLine = amendedTitle u.firstLine := by
      unfold extractTitle amendedTitle
      rw [pyReplace_percent]
    cases h : amendedTitle u.firstLine with
    | none => simp [getList, heq, h, ih]
    | some t => simp [getList, heq, h, ih]

/-- C1 counterexample: an I/O failure while writing the pad variant's
rendered document raises past the per-task boundary (the write is not inside
any `try/except`), instead of being returned as a failed result. -/
theorem c1_counterexample :
    raised (compile_sub_pad "contents/p" "N" "0_pad"
      (fun _ _ => Except.error "disk full") (Except.ok (0, ""))) = true := rfl

/-- C1 (amended): a read or write I/O failure while rendering the EXAM
variant fails only that variant (a failed result is returned; the sibling pad
task still runs and its own result is reduced into the project outcome), but
an I/O failure while rendering the PAD variant raises past the per-task
boundary and propagates out of the whole project task, to be caught only at
the project-scheduler boundary. -/
theorem c1_amended (entry name tid e body : String)
    (w : String → String → Except String Unit)
    (p : Except String (Int × String)) (i : Nat)
    (pPad : Except String (Int × String))
    (rM : String → Except String String)
    (wE : String → String → Except String Unit)
    (pE : Except String (Int × String)) :
    compile_sub_exam entry name tid (fun _ => Except.error e) w p
      = Except.ok ⟨false, "exam_" ++ tid, some e⟩
    ∧ compile_sub_exam entry name tid (fun _ => Except.ok body)
        (fun _ _ => Except.error e) p
      = Except.ok ⟨false, "exam_" ++ tid, some e⟩
    ∧ compile_sub_project entry name i (fun _ _ => Except.ok ()) pPad
        (fun _ => Except.error e) wE pE
      = Except.ok (okSucc (compile_sub_pad entry name (toString i ++ "_pad")
          (fun _ _ => Except.ok ()) pPad) && false, i, name)
    ∧ compile_sub_project entry name i (fun _ _ => Except.error e) pPad rM wE pE
      = Except.error e := by
  refine ⟨rfl, rfl, ?_, rfl⟩
  cases pPad with
  | error e' => rfl
  | ok pr =>
    obtain ⟨rc, stderr⟩ := pr
    by_cases hrc : rc = 0
    · simp only [compile_sub_project, compile_sub_pad, compile_sub_exam, okSucc, hrc]
      rfl
    · simp only [compile_sub_project, compile_sub_pad, compile_sub_exam, okSucc, hrc]
      rfl

/-- Reduction of `compile_sub_exam` when both I/O oracles succeed. -/
theorem compile_sub_exam_ran (entry name tid body : String)
    (proc : Except String (Int × String)) :
    compile_sub_exam entry name tid (fun _ => Except.ok body)
        (fun _ _ => Except.ok ()) proc
      = (match proc with
        | Except.error e => Except.ok ⟨false, "exam_" ++ tid, some e⟩
        | Except.ok (returncode, stderr) =>
          if returncode = 0 then
            Except.ok ⟨true, "exam_" ++ tid, none⟩
          else
            Except.ok ⟨false, "exam_" ++ tid,
              if stderr = "" then none else some (pySlice500 stderr)⟩) := rfl

/-- C5: each compiler invocation is classified solely by the subprocess's
exit status — status 0 gives a successful result, any nonzero status a failed
one whose printed diagnostic is at most the first 500 characters of the
captured error stream; and a failure to even start the subprocess is caught
and reported as a failed result carrying the exception text, never
propagated. -/
theorem c5_exit_status_classification (entry name tid body stderr e : String) (rc : Int) :
    succOf (compile_sub_pad entry name tid (fun _ _ => Except.ok ())
        (Except.ok (rc, stderr))) = some (decide (rc = 0))
    ∧ succOf (compile_sub_exam entry name tid (fun _ => Except.ok body)
        (fun _ _ => Except.ok ()) (Except.ok (rc, stderr))) = some (decide (rc = 0))
    ∧ diagLen (compile_sub_pad entry name tid (fun _ _ => Except.ok ())
        (Except.ok (rc, stderr))) ≤ 500
    ∧ diagLen (compile_sub_exam entry name tid (fun _ => Except.ok body)
        (fun _ _ => Except.ok ()) (Except.ok (rc, stderr))) ≤ 500
    ∧ compile_sub_pad entry name tid (fun _ _ => Except.ok ()) (Except.error e)
      = Except.ok ⟨false, "pad_" ++ tid, some e⟩
    ∧ compile_sub_exam entry name tid (fun _ => Except.ok body)
        (fun _ _ => Except.ok ()) (Except.error e)
      = Except.ok ⟨false, "exam_" ++ tid, some e⟩ := by
  have hdiag : ∀ s : String, (pySlice500 s).length ≤ 500 := by
    intro s
    show (s.data.take 500).length ≤ 500
    rw [List.length_take]
    exact Nat.min_le_left _ _
  refine ⟨?_, ?_, ?_, ?_, rfl, rfl⟩
  · by_cases hrc : rc = 0 <;>
      simp [compile_sub_pad, succOf, hrc]
  · by_cases hrc : rc = 0 <;>
      simp [compile_sub_exam_ran, succOf, hrc]
  · by_cases hrc : rc = 0 <;> by_cases hs : stderr = "" <;>
      simp [compile_sub_pad, diagLen, hrc, hs, hdiag stderr]
  · by_cases hrc : rc = 0 <;> by_cases hs : stderr = "" <;>
      simp [compile_sub_exam_ran, diagLen, hrc, hs, hdiag stderr]

theorem aggregateAux_length :
    ∀ (l : List ProjectArrival), ∀ (i : Nat),
      (aggregateAux i l).1.length + (aggregateAux i l).2.length = l.length := by
  intro l
  induction l with
  | nil => intro i; rfl
  | cons r rest ih =>
    intro i
    have h := ih (i + 1)
    cases r with
    | error e =>
      simp only [aggregateAux, List.length_cons]
      omega
    | ok v =>
      obtain ⟨b, k, nm⟩ := v
      cases b <;> simp only [aggregateAux, List.length_cons] <;> omega

theorem aggregateAux_fst_index :
    ∀ (l : List ProjectArrival), ∀ (i j : Nat),
      (aggregateAux i l).1 = (aggregateAux j l).1 := by
  intro l
  induction l with
  | nil => intro i j; rfl
  | cons r rest ih =>
    intro i j
    cases r with
    | error e => simpa only [aggregateAux] using ih (i + 1) (j + 1)
    | ok v =>
      obtain ⟨b, k, nm⟩ := v
      cases b <;> simp only [aggregateAux] <;>
        rw [ih (i + 1) (j + 1)]

theorem aggregateAux_error_skip_fst :
    ∀ (l₁ l₂ : List ProjectArrival) (e : String) (i : Nat),
      (aggregateAux i (l₁ ++ Except.error e :: l₂)).1
        = (aggregateAux i (l₁ ++ l₂)).1 := by
  intro l₁
  induction l₁ with
  | nil =>
    intro l₂ e i
    simp only [List.nil_append, aggregateAux]
    exact aggregateAux_fst_index l₂ (i + 1) i
  | cons r rest ih =>
    intro l₂ e i
    cases r with
    | error e' =>
      simp only [List.cons_append, aggregateAux]
      exact ih l₂ e (i + 1)
    | ok v =>
      obtain ⟨b, k, nm⟩ := v
      cases b with
      | true =>
        simp only [List.cons_append, aggregateAux]
        exact congrArg (List.cons nm) (ih l₂ e (i + 1))
      | false =>
        simp only [List.cons_append, aggregateAux]
        exact ih l₂ e (i + 1)

theorem aggregateAux_error_mem :
    ∀ (l₁ l₂ : List ProjectArrival) (e : String) (i : Nat),
      ("项目" ++ toString (i + l₁.length))
        ∈ (aggregateAux i (l₁ ++ Except.error e :: l₂)).2 := by
  intro l₁
  induction l₁ with
  | nil =>
    intro l₂ e i
    simp only [List.nil_append, aggregateAux, List.length_nil, Nat.add_zero]
    exact List.mem_cons_self _ _
  | cons r rest ih =>
    intro l₂ e i
    have harith : i + (r :: rest).length = (i + 1) + rest.length := by
      simp only [List.length_cons]; omega
    rw [harith]
    cases r with
    | error e' =>
      simp only [List.cons_append, aggregateAux]
      exact List.mem_cons_of_mem _ (ih l₂ e (i + 1))
    | ok v =>
      obtain ⟨b, k, nm⟩ := v
      cases b with
      | true =>
        simp only [List.cons_append, aggregateAux]
        exact ih l₂ e (i + 1)
      | false =>
        simp only [List.cons_append, aggregateAux]
        exact List.mem_cons_of_mem _ (ih l₂ e (i + 1))

/-- C2: the scheduler loop yields exactly one outcome per submitted project
(`successCount + failureCount = N` for every arrival order), and an uncaught
exception from one project's task is caught at the scheduler boundary and
recorded as a failure under the synthesized identifier `项目{i}` (its arrival
index), without affecting any other project's outcome. -/
theorem c2_one_outcome_per_project (l l₁ l₂ : List ProjectArrival) (e : String) :
    (aggregate l).1.length + (aggregate l).2.length = l.length
    ∧ (aggregate (l₁ ++ Except.error e :: l₂)).1 = (aggregate (l₁ ++ l₂)).1
    ∧ ("项目" ++ toString l₁.length)
        ∈ (aggregate (l₁ ++ Except.error e :: l₂)).2 := by
  refine ⟨aggregateAux_length l 0, aggregateAux_error_skip_fst l₁ l₂ e 0, ?_⟩
  have h := aggregateAux_error_mem l₁ l₂ e 0
  simpa using h

theorem aggregateAux_all_ok :
    ∀ (l : List ProjectArrival), ∀ (i : Nat), (∀ x ∈ l, resOk x = true) →
      aggregateAux i l = (l.filterMap succName, l.filterMap failName) := by
  intro l
  induction l with
  | nil => intro i _; rfl
  | cons r rest ih =>
    intro i h
    have hr := h r (List.mem_cons_self r rest)
    have hrest : ∀ x ∈ rest, resOk x = true :=
      fun x hx => h x (List.mem_cons_of_mem r hx)
    cases r with
    | error e => simp [resOk] at hr
    | ok v =>
      obtain ⟨b, k, nm⟩ := v
      cases b <;>
        simp [aggregateAux, succName, failName, List.filterMap_cons, ih i hrest,
          ih (i + 1) hrest]

/-- C9: for a fixed multiset of per-project outcomes, the successful and
failed name lists of the final report are permutation-invariant under the
completion/arrival order: any two arrival orders give the same memberships,
only the order within each list can differ. -/
theorem c9_report_order_invariant (l l' : List ProjectArrival)
    (hp : l.Perm l') (h : ∀ x ∈ l, resOk x = true) :
    (aggregate l).1.Perm (aggregate l').1
    ∧ (aggregate l).2.Perm (aggregate l').2 := by
  have h' : ∀ x ∈ l', resOk x = true := fun x hx => h x (hp.mem_iff.mpr hx)
  unfold aggregate
  rw [aggregateAux_all_ok l 0 h, aggregateAux_all_ok l' 0 h']
  exact ⟨hp.filterMap _, hp.filterMap _⟩

/-- Witness for C9 at a concrete pair of arrival orders. -/
theorem c9_report_order_invariant_witness :
    (aggregate [Except.ok (true, 0, "p"), Except.ok (false, 1, "q")]).1.Perm
      (aggregate [Except.ok (false, 1, "q"), Except.ok (true, 0, "p")]).1
    ∧ (aggregate [Except.ok (true, 0, "p"), Except.ok (false, 1, "q")]).2.Perm
      (aggregate [Except.ok (false, 1, "q"), Except.ok (true, 0, "p")]).2 :=
  c9_report_order_invariant _ _ (List.Perm.swap _ _ _) (by decide)

/-- C3: the process's final exit status is 0 iff the failed-project list is
empty, and a nonzero exit status is specifically 1. -/
theorem c3_exit_status (subFlag : String) (units : List SrcUnit)
    (arrivals : List ProjectArrival) :
    ((mainModel subFlag units arrivals).exitCode = 0
      ↔ (mainModel subFlag units arrivals).failed = [])
    ∧ ((mainModel subFlag units arrivals).exitCode = 0
      ∨ (mainModel subFlag units arrivals).exitCode = 1) := by
  unfold mainModel
  by_cases hs : pyLower subFlag = "true"
  · rw [if_pos hs]
    by_cases hp : (getList units).isEmpty = true
    · rw [if_pos hp]
      exact ⟨by simp, Or.inl rfl⟩
    · rw [if_neg hp]
      dsimp only
      by_cases hf : (aggregate arrivals).2.length = 0
      · rw [if_pos hf]
        exact ⟨by simp [List.length_eq_zero.mp hf], Or.inl rfl⟩
      · rw [if_neg hf]
        refine ⟨?_, Or.inr rfl⟩
        constructor
        · intro h; omega
        · intro h
          exact absurd (by rw [h]; rfl : (aggregate arrivals).2.length = 0) hf
  · rw [if_neg hs]
    exact ⟨by simp, Or.inl rfl⟩

/-- C10: any `--sub` flag value whose lowercase form is not the string
`true` makes `main` return before any project discovery or compilation, with
process exit status 0 (and `True` does enable the run). -/
theorem c10_sub_gate (s : String) (units : List SrcUnit)
    (arrivals : List ProjectArrival) (h : pyLower s ≠ "true") :
    mainModel s units arrivals = ⟨false, [], [], 0⟩
    ∧ pyLower "True" = "true" := by
  constructor
  · unfold mainModel
    rw [if_neg h]
  · rfl

/-- Witness for C10 at the concrete flag value `yes`. -/
theorem c10_sub_gate_witness :
    mainModel "yes" [] [] = ⟨false, [], [], 0⟩ ∧ pyLower "True" = "true" :=
  c10_sub_gate "yes" [] [] (by decide)

/-- C8 (code bug): with 4 detected CPUs, `--force-cpu 16` and no explicit
width flags, the run uses the auto plan `(4, 2)` — the `args.x != x` override
check cannot distinguish the argparse default from an explicit flag and
reverts the forced plan — whereas the three-tier policy applied to the forced
count gives `(14, 2)` as the claim (and the code's own intent) states. -/
theorem c8_force_cpu_reverted :
    resolveWidths 4 16 none none = (4, 2)
    ∧ calculate_concurrency 16 = (14, 2)
    ∧ resolveWidths 4 16 none none ≠ calculate_concurrency 16 := by decide
